import Mathlib

/-!
Verification development for the core repository engine of
src/src/libostree/ostree-repo.c (an ostree fork).  The definitions below are a
shallow embedding of the C functions named in their doc comments; disk state
(loose object directories, the commit staging directory, the keyfile
configuration, the remotes registry and the parent-repo chain) is explicit
data, and errno-style failures become an explicit error type.  Definitions
whose C source is outside ostree-repo.c are marked as modelled from the spec.
-/

namespace Ostree

/-- Storage mode of a repository (core/mode), OstreeRepoMode in the source. -/
inductive RepoMode where
  | bare
  | bareUser
  | bareUserOnly
  | archiveZ2
deriving DecidableEq

/-- Object kinds, OstreeObjectType in the source.  `file` is a content object;
the rest are metadata objects (OSTREE_OBJECT_TYPE_IS_META). -/
inductive ObjType where
  | file
  | dirTree
  | dirMeta
  | commit
  | tombstoneCommit
  | commitMeta
deriving DecidableEq

/-- Error kinds surfaced by the embedded operations: GIOError codes plus
keyfile errors, collapsed to the distinctions the code branches on. -/
inductive RErr where
  | notFound
  | already
  | invalidValue
  | ioError
  | assertFailed
deriving DecidableEq

/-- A detached OpenPGP signature.  The packet bytes are opaque; the signing
key id recovered by the GPG engine is carried alongside (the engine itself is
external to ostree-repo.c). -/
structure GpgSig where
  keyId : String
  body : List Nat
deriving DecidableEq

/-- Leaf value of a one-level metadata dictionary (the only dictionaries the
verified operations build): a byte string, or the aay signature array stored
under ostree.gpgsigs. -/
inductive MLeaf where
  | bytes (bs : List Nat)
  | sigArray (sigs : List GpgSig)
deriving DecidableEq

/-- A metadata variant: either an opaque serialized blob (commits, dirtrees,
dirmetas as loaded from disk) or an a{sv} dictionary with leaf values. -/
inductive MVal where
  | blob (bs : List Nat)
  | vdict (entries : List (String × MLeaf))
deriving DecidableEq

/-- A loose metadata object on disk: its variant value together with its
on-disk byte size (what fstat reports as st_size). -/
structure MetaObj where
  size : Nat
  val : MVal
deriving DecidableEq

/-- Key of a loose object: checksum and object type (the loose path
objects/XX/YYYY.EXT determines both). -/
structure ObjKey where
  digest : String
  otype : ObjType
deriving DecidableEq

/-- POSIX format bits of a st_mode value (the high nibble tested by
S_ISREG / S_ISLNK). -/
def fmtBits (m : Nat) : Nat := m / 4096 % 16

/-- S_ISREG on a st_mode value. -/
def isRegMode (m : Nat) : Bool := fmtBits m == 8

/-- S_ISLNK on a st_mode value. -/
def isLnkMode (m : Nat) : Bool := fmtBits m == 10

/-- The user.ostreemeta xattr payload of a bare-user file object:
(uid, gid, mode, xattrs), the OSTREE_FILEMETA_GVARIANT_FORMAT. -/
structure FileMeta where
  uid : Nat
  gid : Nat
  fmode : Nat
  xattrs : List (String × String)
deriving DecidableEq

/-- A loose content object on disk for the bare family of modes: the stat
identity, the optional user.ostreemeta xattr, the file xattrs, and the
payload (file content, or link target bytes when the entry is a symlink). -/
structure DiskFile where
  stUid : Nat
  stGid : Nat
  stMode : Nat
  ostreemeta : Option FileMeta
  xattrs : List (String × String)
  payload : String
deriving DecidableEq

/-- Contents of an open commit staging directory. -/
structure StageDir where
  meta : List (ObjKey × MetaObj)
  files : List (String × DiskFile)
deriving DecidableEq

/-- The non-recursive fields of an OstreeRepo handle: mode, the loose object
stores, the staging directory (commit_stagedir_fd is open iff some), the
keyfile config, the remotes registry (name to option dictionary) and the
disable-xattrs tunable. -/
structure RepoData where
  mode : RepoMode
  objectsMeta : List (ObjKey × MetaObj)
  objectsFiles : List (String × DiskFile)
  staged : Option StageDir
  config : List ((String × String) × String)
  remotes : List (String × List (String × String))
  disableXattrs : Bool
deriving DecidableEq

/-- An OstreeRepo handle: its data plus the parent-repo chain (core/parent,
opened recursively and therefore finite). -/
inductive Repo where
  | mk (d : RepoData) (parent : Option Repo)

/-- Data fields of a repo handle. -/
def Repo.data : Repo → RepoData
  | .mk d _ => d

/-- Parent repo of a handle, if configured. -/
def Repo.parent : Repo → Option Repo
  | .mk _ p => p

/-- Association-list lookup (the explicit form of the hash-table lookups in
the source). -/
def lookupA {α β : Type} [DecidableEq α] : List (α × β) → α → Option β
  | [], _ => none
  | (k, v) :: t, k2 => if k = k2 then some v else lookupA t k2

/-- Association-list removal of a key (unlinkat of a loose path). -/
def removeA {α β : Type} [DecidableEq α] : List (α × β) → α → List (α × β)
  | [], _ => []
  | (k, v) :: t, k2 => if k = k2 then removeA t k2 else (k, v) :: removeA t k2

/-- Association-list update/insert (atomic replace of a loose file). -/
def setA {α β : Type} [DecidableEq α] (l : List (α × β)) (k : α) (v : β) :
    List (α × β) :=
  (k, v) :: removeA l k

/-- How a loaded metadata variant is backed in memory. -/
inductive Backing where
  | mmap
  | heap
deriving DecidableEq

/-- The mmap-versus-read decision of load_metadata_internal
(ostree-repo.c:2573): sizes strictly above 16*1024 bytes are mapped, anything
else is read fully into a heap buffer. -/
def chooseBacking (size : Nat) : Backing :=
  if size > 16 * 1024 then .mmap else .heap

/-- The local (single-repo) part of the metadata lookup in
load_metadata_internal (ostree-repo.c:2554-2563): open under objects/ first,
then, when the fd is still unset and a commit staging directory is open,
under the staging directory. -/
def localMetaLookup (d : RepoData) (k : ObjKey) : Option MetaObj :=
  match lookupA d.objectsMeta k with
  | some o => some o
  | none =>
    match d.staged with
    | some st => lookupA st.meta k
    | none => none

/-- load_metadata_internal (ostree-repo.c:2513-2635), specialized to the
out_variant-requesting caller (the dirmeta cache is bypassed, as for a cold
cache).  A locally found object is returned with the backing chosen by size;
otherwise the parent repo is delegated to through ostree_repo_load_variant
(which passes error_if_not_found as true); otherwise absence is either the
distinguished not-found error or a successful none. -/
def load_metadata_internal : Repo → ObjKey → Bool → Except RErr (Option (Backing × MetaObj))
  | .mk d none, k, errIfNotFound =>
    match localMetaLookup d k with
    | some o => .ok (some (chooseBacking o.size, o))
    | none =>
      if errIfNotFound then .error .notFound else .ok none
  | .mk d (some p), k, _ =>
    match localMetaLookup d k with
    | some o => .ok (some (chooseBacking o.size, o))
    | none => load_metadata_internal p k true

/-- ostree_repo_load_variant (ostree-repo.c:3463-3472). -/
def ostree_repo_load_variant (r : Repo) (k : ObjKey) :
    Except RErr (Option (Backing × MetaObj)) :=
  load_metadata_internal r k true

/-- ostree_repo_load_variant_if_exists (ostree-repo.c:3441-3450). -/
def ostree_repo_load_variant_if_exists (r : Repo) (k : ObjKey) :
    Except RErr (Option (Backing × MetaObj)) :=
  load_metadata_internal r k false

/-- The staging/objects membership scan of _ostree_repo_has_loose_object
(ostree-repo.c:2966-3002): the dfd_searches array puts commit_stagedir_fd
first, then objects_dir_fd; a stat success in either reports the object as
stored.  Content and metadata objects share the loose path scheme, so the
scan is expressed on both stores of the key's kind. -/
def _ostree_repo_has_loose_object (r : Repo) (k : ObjKey) : Bool :=
  let d := r.data
  let inStage :=
    match d.staged with
    | some st =>
      match k.otype with
      | .file => (lookupA st.files k.digest).isSome
      | _ => (lookupA st.meta k).isSome
    | none => false
  let inObjects :=
    match k.otype with
    | .file => (lookupA d.objectsFiles k.digest).isSome
    | _ => (lookupA d.objectsMeta k).isSome
  inStage || inObjects

/-- ostree_repo_has_object (ostree-repo.c:3018-3044): loose lookup locally,
then the parent repo recursively. -/
def ostree_repo_has_object : Repo → ObjKey → Bool
  | .mk d none, k => _ostree_repo_has_loose_object (.mk d none) k
  | .mk d (some p), k =>
    _ostree_repo_has_loose_object (.mk d (some p)) k ||
      ostree_repo_has_object p k

/-- The result of a bare-family content-object load: the identity and mode
reported through the stat buffer, the symlink target when the logical object
is a symlink, and the xattr set. -/
structure LoadedFile where
  uid : Nat
  gid : Nat
  fmode : Nat
  symlink : Option String
  xattrs : List (String × String)
deriving DecidableEq

/-- The fstatat cascade of _ostree_repo_load_file_bare
(ostree-repo.c:2728-2736): the objects directory first, then, on ENOENT with
an open staging directory, the staging directory. -/
def localFileLookup (d : RepoData) (checksum : String) : Option DiskFile :=
  match lookupA d.objectsFiles checksum with
  | some f => some f
  | none =>
    match d.staged with
    | some st => lookupA st.files checksum
    | none => none

/-- The mode-directed decoding of a locally found entry in
_ostree_repo_load_file_bare (ostree-repo.c:2747-2842), with every out
parameter requested.  In bare-user the stat identity is overlaid from the
user.ostreemeta xattr (read through an fd, so a disk entry that is not a
regular file fails), and a logical symlink's target is the payload bytes; in
bare-user-only uid and gid are canonicalized to zero and the xattr set to
empty; in bare the stat identity and the on-disk xattrs (empty under
disable-xattrs) are reported.  An entry that is neither regular nor a symlink
is rejected (ostree-repo.c:2760), and reaching the bare branch in any other
mode is the g_assert at ostree-repo.c:2815. -/
def loadFileBareLocal (d : RepoData) (f : DiskFile) : Except RErr LoadedFile :=
  if ¬ (isRegMode f.stMode || isLnkMode f.stMode) then .error .ioError
  else
    match d.mode with
    | .bareUser =>
      if ¬ isRegMode f.stMode then .error .ioError
      else
        match f.ostreemeta with
        | none => .error .ioError
        | some m =>
          if isLnkMode m.fmode then
            .ok ⟨m.uid, m.gid, m.fmode, some f.payload, m.xattrs⟩
          else
            .ok ⟨m.uid, m.gid, m.fmode, none, m.xattrs⟩
    | .bareUserOnly =>
      .ok ⟨0, 0, f.stMode,
           if isLnkMode f.stMode then some f.payload else none, []⟩
    | .bare =>
      .ok ⟨f.stUid, f.stGid, f.stMode,
           if isLnkMode f.stMode then some f.payload else none,
           if d.disableXattrs then [] else f.xattrs⟩
    | .archiveZ2 => .error .assertFailed

/-- The lookup/recursion skeleton of _ostree_repo_load_file_bare: a locally
found entry is decoded under this repo's mode, ENOENT in both local
directories recurses into the parent repo, and the null bottom of the
recursion is the distinguished not-found error (ostree-repo.c:2713-2745). -/
def _ostree_repo_load_file_bare : Repo → String → Except RErr LoadedFile
  | .mk d none, checksum =>
    match localFileLookup d checksum with
    | some f => loadFileBareLocal d f
    | none => .error .notFound
  | .mk d (some p), checksum =>
    match localFileLookup d checksum with
    | some f => loadFileBareLocal d f
    | none => _ostree_repo_load_file_bare p checksum

/-- Modelled from the spec: ot_keyfile_get_boolean_with_default (libotutil,
not part of ostree-repo.c).  GKeyFile boolean semantics: a missing group or
key yields the default, the literals true and false parse, anything else is
an invalid-value error. -/
def ot_keyfile_get_boolean_with_default
    (config : List ((String × String) × String)) (sect key : String)
    (dflt : Bool) : Except RErr Bool :=
  match lookupA config (sect, key) with
  | none => .ok dflt
  | some v =>
    if v = "true" then .ok true
    else if v = "false" then .ok false
    else .error .invalidValue

/-- Bytes of a checksum string, as stored by g_variant_new_bytestring. -/
def strBytes (s : String) : List Nat := s.data.map Char.toNat

/-- Modelled from the spec: the serialized length of a variant as written by
the writer path (the exact framing is owned by the external variant codec);
only its existence matters to the verified claims. -/
def encodedSize : MVal → Nat
  | .blob bs => bs.length
  | .vdict es => es.length

/-- Modelled from the spec: ostree_repo_write_metadata_trusted
(ostree-repo-commit.c, not part of ostree-repo.c).  Writing an object that is
already present is a no-op (spec invariant 1); otherwise the loose object
becomes present. -/
def ostree_repo_write_metadata_trusted (d : RepoData) (k : ObjKey) (v : MVal) :
    RepoData :=
  match lookupA d.objectsMeta k with
  | some _ => d
  | none => { d with objectsMeta := setA d.objectsMeta k ⟨encodedSize v, v⟩ }

/-- The tombstone variant written when deleting a commit with
core/tombstone-commits enabled (ostree-repo.c:3095-3100): an a{sv} dictionary
mapping commit to the deleted checksum as a bytestring. -/
def tombstoneVariant (sha : String) : MVal :=
  .vdict [("commit", .bytes (strBytes sha))]

/-- ostree_repo_delete_object (ostree-repo.c:3058-3112).  For commits the
commitmeta twin is unlinked first with ENOENT ignored; then the loose object
itself is unlinked, ENOENT being the reported error; then, for commits, the
core/tombstone-commits key is read and, when true, a tombstone metadata
object recording the checksum is written.  The returned state reflects the
disk mutations performed before any failure. -/
def ostree_repo_delete_object (r : Repo) (otype : ObjType) (sha : String) :
    Repo × Option RErr :=
  match r with
  | .mk d par =>
    let d1 : RepoData :=
      if otype = .commit then
        { d with objectsMeta := removeA d.objectsMeta ⟨sha, .commitMeta⟩ }
      else d
    match otype with
    | .file =>
      match lookupA d1.objectsFiles sha with
      | none => (.mk d1 par, some .notFound)
      | some _ =>
        (.mk { d1 with objectsFiles := removeA d1.objectsFiles sha } par, none)
    | _ =>
      match lookupA d1.objectsMeta ⟨sha, otype⟩ with
      | none => (.mk d1 par, some .notFound)
      | some _ =>
        let d2 : RepoData :=
          { d1 with objectsMeta := removeA d1.objectsMeta ⟨sha, otype⟩ }
        if otype = .commit then
          match ot_keyfile_get_boolean_with_default d2.config "core"
              "tombstone-commits" false with
          | .error e => (.mk d2 par, some e)
          | .ok false => (.mk d2 par, none)
          | .ok true =>
            (.mk (ostree_repo_write_metadata_trusted d2
                    ⟨sha, .tombstoneCommit⟩ (tombstoneVariant sha)) par, none)
        else (.mk d2 par, none)

/-- _ostree_repo_remote_name_is_file (ostree-repo.c:216-220):
g_str_has_prefix of the name against file://, expressed on the character
sequences. -/
def _ostree_repo_remote_name_is_file (remoteName : String) : Bool :=
  "file://".data.isPrefixOf remoteName.data

/-- ostree_repo_get_remote_option (ostree-repo.c:238-296).  A file:// name
returns the default immediately.  A locally known remote with the key present
returns its value; with the key missing, a successful parent lookup wins and
any parent failure falls back to the default.  A locally unknown remote
delegates entirely to the parent, and the bottom of the chain is the
distinguished not-found error. -/
def ostree_repo_get_remote_option :
    Repo → String → String → Option String → Except RErr (Option String)
  | .mk d none, remoteName, optionName, dflt =>
    if _ostree_repo_remote_name_is_file remoteName then .ok dflt
    else
      match lookupA d.remotes remoteName with
      | some opts =>
        match lookupA opts optionName with
        | some v => .ok (some v)
        | none => .ok dflt
      | none => .error .notFound
  | .mk d (some p), remoteName, optionName, dflt =>
    if _ostree_repo_remote_name_is_file remoteName then .ok dflt
    else
      match lookupA d.remotes remoteName with
      | some opts =>
        match lookupA opts optionName with
        | some v => .ok (some v)
        | none =>
          match ostree_repo_get_remote_option p remoteName optionName dflt with
          | .ok v => .ok v
          | .error _ => .ok dflt
      | none => ostree_repo_get_remote_option p remoteName optionName dflt

/-- ostree_repo_get_remote_list_option (ostree-repo.c:316-372): same cascade
as the string getter, the default being the absent list; the stored value is
split on the GKeyFile list separator. -/
def ostree_repo_get_remote_list_option :
    Repo → String → String → Except RErr (Option (List String))
  | .mk d none, remoteName, optionName =>
    if _ostree_repo_remote_name_is_file remoteName then .ok none
    else
      match lookupA d.remotes remoteName with
      | some opts =>
        match lookupA opts optionName with
        | some v => .ok (some (v.splitOn ";"))
        | none => .ok none
      | none => .error .notFound
  | .mk d (some p), remoteName, optionName =>
    if _ostree_repo_remote_name_is_file remoteName then .ok none
    else
      match lookupA d.remotes remoteName with
      | some opts =>
        match lookupA opts optionName with
        | some v => .ok (some (v.splitOn ";"))
        | none =>
          match ostree_repo_get_remote_list_option p remoteName optionName with
          | .ok v => .ok v
          | .error _ => .ok none
      | none => ostree_repo_get_remote_list_option p remoteName optionName

/-- ostree_repo_get_remote_boolean_option (ostree-repo.c:391-449): same
cascade as the string getter with GKeyFile boolean parsing; an invalid stored
value is propagated as an error rather than cascaded. -/
def ostree_repo_get_remote_boolean_option :
    Repo → String → String → Bool → Except RErr Bool
  | .mk d none, remoteName, optionName, dflt =>
    if _ostree_repo_remote_name_is_file remoteName then .ok dflt
    else
      match lookupA d.remotes remoteName with
      | some opts =>
        match lookupA opts optionName with
        | some v =>
          if v = "true" then .ok true
          else if v = "false" then .ok false
          else .error .invalidValue
        | none => .ok dflt
      | none => .error .notFound
  | .mk d (some p), remoteName, optionName, dflt =>
    if _ostree_repo_remote_name_is_file remoteName then .ok dflt
    else
      match lookupA d.remotes remoteName with
      | some opts =>
        match lookupA opts optionName with
        | some v =>
          if v = "true" then .ok true
          else if v = "false" then .ok false
          else .error .invalidValue
        | none =>
          match ostree_repo_get_remote_boolean_option p remoteName optionName dflt with
          | .ok v => .ok v
          | .error _ => .ok dflt
      | none => ostree_repo_get_remote_boolean_option p remoteName optionName dflt

/-- ostree_repo_remote_get_gpg_verify (ostree-repo.c:1260-1278): file:// names
report verification disabled; otherwise the boolean getter on gpg-verify with
default true. -/
def ostree_repo_remote_get_gpg_verify (r : Repo) (name : String) :
    Except RErr Bool :=
  if _ostree_repo_remote_name_is_file name then .ok false
  else ostree_repo_get_remote_boolean_option r name "gpg-verify" true

/-- g_hash_table_insert of a remote name into the accumulator set
(ostree-repo.c:1144): key-set semantics, later inserts of the same name are
absorbed. -/
def hashSetInsert (s : List String) (x : String) : List String :=
  if x ∈ s then s else x :: s

/-- Inserting every registry name of one repo into the accumulator
(ostree-repo.c:1142-1144). -/
def insertRemoteNames (d : RepoData) (acc : List String) : List String :=
  (d.remotes.map Prod.fst).foldl hashSetInsert acc

/-- _ostree_repo_remote_list (ostree-repo.c:1133-1150), written with explicit
fuel because the C recursion is not well founded: after inserting the local
names the code tests self->parent_repo but recurses on SELF
(ostree-repo.c:1148-1149), so the same repo is revisited for ever whenever a
parent is configured.  none is returned exactly when the fuel runs out, i.e.
when the C call would still be running after that many recursive calls. -/
def _ostree_repo_remote_list : Nat → Repo → List String → Option (List String)
  | 0, _, _ => none
  | fuel + 1, .mk d par, acc =>
    let acc2 := insertRemoteNames d acc
    match par with
    | some _ => _ostree_repo_remote_list fuel (.mk d par) acc2
    | none => some acc2

/-- ostree_repo_remote_list (ostree-repo.c:1163-1201): collect the name set
through the helper, then sort it with strcmp.  The fuel bounds the helper's
recursion depth; a none result means the helper had not returned within that
bound. -/
def ostree_repo_remote_list (fuel : Nat) (r : Repo) : Option (List String) :=
  (_ostree_repo_remote_list fuel r []).map
    (fun names => names.insertionSort (fun a b => a ≤ b))

/-- Data bytes of a metadata variant (g_variant_get_data_as_bytes). -/
def MVal.bytesOf : MVal → List Nat
  | .blob bs => bs
  | .vdict _ => []

/-- Modelled from the spec: ostree_repo_read_commit_detached_metadata
(ostree-repo-commit.c, not part of ostree-repo.c) loads the commitmeta object
for the checksum if it exists, yielding none when absent. -/
def ostree_repo_read_commit_detached_metadata (r : Repo) (sha : String) :
    Except RErr (Option MVal) :=
  match load_metadata_internal r ⟨sha, .commitMeta⟩ false with
  | .error e => .error e
  | .ok none => .ok none
  | .ok (some (_, o)) => .ok (some o.val)

/-- Modelled from the spec: ostree_repo_write_commit_detached_metadata
(ostree-repo-commit.c, not part of ostree-repo.c) persists the given
dictionary as the commitmeta object of the checksum, replacing any previous
one. -/
def ostree_repo_write_commit_detached_metadata (d : RepoData) (sha : String)
    (v : MVal) : RepoData :=
  { d with objectsMeta := setA d.objectsMeta ⟨sha, .commitMeta⟩ ⟨encodedSize v, v⟩ }

/-- The ostree.gpgsigs signature array of a detached-metadata dictionary, as
extracted by _ostree_repo_gpg_verify_with_metadata (ostree-repo.c:4326-4335). -/
def gpgsigsOf (md : Option MVal) : Option (List GpgSig) :=
  match md with
  | some (.vdict es) =>
    match lookupA es "ostree.gpgsigs" with
    | some (.sigArray sigs) => some sigs
    | _ => none
  | _ => none

/-- _ostree_repo_gpg_verify_with_metadata (ostree-repo.c:4310-4364) restricted
to what ostree_repo_sign_commit consumes: a missing dictionary or missing
ostree.gpgsigs key is the distinguished not-found error
(ostree-repo.c:4330-4335); otherwise the external GPG engine reports one
entry per signature packet, identified by its key id. -/
def _ostree_repo_gpg_verify_with_metadata (md : Option MVal) :
    Except RErr (List String) :=
  match gpgsigsOf md with
  | none => .error .notFound
  | some sigs => .ok (sigs.map GpgSig.keyId)

/-- Abstract state of the external GPG engine consulted by sign_data: the
secret key ids gpgme_get_key can resolve in the configured home directory,
and a pending engine fault, if any, that the gpgme calls made after the key
lookup (gpgme_signers_add, gpgme_data_new_from_mem, gpgme_op_sign and the
signature-file plumbing) would report. -/
structure GpgEnv where
  secretKeys : List String
  signFault : Option RErr

/-- sign_data (ostree-repo.c:3948-4042).  The key lookup comes first: when
gpgme_get_key finds no secret key under the requested id (GPG_ERR_EOF), the
no-gpg-key-found failure is returned (ostree-repo.c:3977-3984).  With the key
resolved, any fault of the subsequent engine calls (ostree-repo.c:3993-4027)
is propagated; otherwise the engine emits a detached signature over the data
bytes under that key. -/
def sign_data (env : GpgEnv) (data : List Nat) (keyId : String) :
    Except RErr GpgSig :=
  if keyId ∈ env.secretKeys then
    match env.signFault with
    | some e => .error e
    | none => .ok ⟨keyId, data⟩
  else .error .ioError

/-- Modelled from the spec: _ostree_detached_metadata_append_gpg_sig
(ostree-repo-commit.c, not part of ostree-repo.c) appends the signature to
the array under ostree.gpgsigs in the detached-metadata dictionary, starting
from an empty dictionary when none existed. -/
def _ostree_detached_metadata_append_gpg_sig (old : Option MVal) (sig : GpgSig) :
    MVal :=
  let es : List (String × MLeaf) :=
    match old with
    | some (.vdict l) => l
    | _ => []
  let sigs : List GpgSig :=
    match lookupA es "ostree.gpgsigs" with
    | some (.sigArray s) => s
    | _ => []
  .vdict (setA es "ostree.gpgsigs" (.sigArray (sigs ++ [sig])))

/-- ostree_repo_sign_commit (ostree-repo.c:4055-4121): load the commit, read
the detached metadata, parse any existing signatures (a not-found from the
parse means the commit is simply unsigned); fail with the exists error when
the requested key id already signed; otherwise call sign_data against the
GPG engine, propagating its failure, and on success append the produced
signature under ostree.gpgsigs and persist. -/
def ostree_repo_sign_commit (r : Repo) (env : GpgEnv) (sha keyId : String) :
    Except RErr Repo :=
  match r with
  | .mk d par =>
    match ostree_repo_load_variant (.mk d par) ⟨sha, .commit⟩ with
    | .error e => .error e
    | .ok none => .error .notFound
    | .ok (some (_, commitObj)) =>
      match ostree_repo_read_commit_detached_metadata (.mk d par) sha with
      | .error e => .error e
      | .ok oldMd =>
        let commitData := commitObj.val.bytesOf
        let proceed : Except RErr Unit :=
          match _ostree_repo_gpg_verify_with_metadata oldMd with
          | .error .notFound => .ok ()
          | .error e => .error e
          | .ok keyIds =>
            if keyId ∈ keyIds then .error .already else .ok ()
        match proceed with
        | .error e => .error e
        | .ok _ =>
          match sign_data env commitData keyId with
          | .error e => .error e
          | .ok sig =>
            let newMd := _ostree_detached_metadata_append_gpg_sig oldMd sig
            .ok (.mk (ostree_repo_write_commit_detached_metadata d sha newMd)
                  par)

/-- Modelled from the spec: ostree_parse_refspec (ostree-core.c, not part of
ostree-repo.c) splits a refspec into an optional remote prefix and a branch;
a ref carries a remote name exactly when it contains a colon. -/
def refspecHasRemote (ref : String) : Bool := ref.contains ':'

/-- Emission order of the main refs array of ostree_repo_regenerate_summary
when no collection id is configured (ostree-repo.c:4684-4703): the ref names
of the ostree_repo_list_refs hash table are sorted with strcmp and walked in
that order, summary_add_ref_entry dropping refs that carry a remote name
(ostree-repo.c:4617-4623). -/
def summaryRefNames (refs : List (String × String)) : List String :=
  ((refs.map Prod.fst).insertionSort (fun a b => a ≤ b)).filter
    (fun ref => !refspecHasRemote ref)

/-- The collection ids occurring among the collection refs
(the key set of the collection_map hash table, ostree-repo.c:4759-4779). -/
def collectionIdsOf (crefs : List ((String × String) × String)) : List String :=
  (crefs.map (fun e => e.1.1)).dedup

/-- The ref names filed under one collection id
(the per-id ref_map hash table, ostree-repo.c:4770-4778). -/
def collectionRefNames (crefs : List ((String × String) × String))
    (cid : String) : List String :=
  (crefs.filter (fun e => e.1.1 == cid)).map (fun e => e.1.2)

/-- The collection map emitted by ostree_repo_regenerate_summary
(ostree-repo.c:4781-4828): collection ids sorted with strcmp, the repo's own
collection id diverted to the main refs array rather than the map, and the
refs of each remaining id sorted with strcmp inside its entry. -/
def summaryCollectionMap (mainId : Option String)
    (crefs : List ((String × String) × String)) : List (String × List String) :=
  (((collectionIdsOf crefs).insertionSort (fun a b => a ≤ b)).filter
      (fun cid => decide (mainId ≠ some cid))).map
    (fun cid => (cid, (collectionRefNames crefs cid).insertionSort
                        (fun a b => a ≤ b)))

/-- The main refs array for either configuration of core/collection-id: the
plain refs when none is configured (ostree-repo.c:4684-4703), else the refs
of the repo's own collection, sorted and filtered by summary_add_ref_entry
(ostree-repo.c:4786-4814). -/
def summaryMainRefNames (mainId : Option String)
    (refs : List (String × String))
    (crefs : List ((String × String) × String)) : List String :=
  match mainId with
  | none => summaryRefNames refs
  | some mid =>
    ((collectionRefNames crefs mid).insertionSort (fun a b => a ≤ b)).filter
      (fun ref => !refspecHasRemote ref)

/-! Association-list lemmas shared by the claim proofs. -/

theorem lookupA_removeA_self {α β : Type} [DecidableEq α]
    (l : List (α × β)) (k : α) : lookupA (removeA l k) k = none := by
  induction l with
  | nil => rfl
  | cons h t ih =>
    obtain ⟨k1, v1⟩ := h
    by_cases hk : k1 = k
    · simpa [removeA, hk] using ih
    · simp [removeA, hk, lookupA, ih]

theorem lookupA_removeA_ne {α β : Type} [DecidableEq α]
    (l : List (α × β)) (k k2 : α) (h : k ≠ k2) :
    lookupA (removeA l k) k2 = lookupA l k2 := by
  induction l with
  | nil => rfl
  | cons hd t ih =>
    obtain ⟨k1, v1⟩ := hd
    by_cases hk : k1 = k
    · subst hk
      simp [removeA, lookupA, h, ih]
    · by_cases hk2 : k1 = k2
      · simp [removeA, hk, lookupA, hk2, Ne.symm h]
      · simp [removeA, hk, lookupA, hk2, ih]

theorem lookupA_setA_self {α β : Type} [DecidableEq α]
    (l : List (α × β)) (k : α) (v : β) :
    lookupA (setA l k v) k = some v := by
  simp [setA, lookupA]

theorem lookupA_setA_ne {α β : Type} [DecidableEq α]
    (l : List (α × β)) (k k2 : α) (v : β) (h : k ≠ k2) :
    lookupA (setA l k v) k2 = lookupA l k2 := by
  simp [setA, lookupA, h, lookupA_removeA_ne l k k2 h]

/-! Claim C8: the 16 KiB mmap threshold of the loose metadata load. -/

/-- C8: when loading a loose metadata object as a variant, a blob whose
on-disk size is at most 16 KiB (in particular exactly 16384 bytes) is read
fully into a heap buffer, while a blob strictly larger (in particular
16 KiB + 1 bytes) is memory-mapped and the returned variant borrows the
mapping. -/
theorem c8_metadata_mmap_threshold (d : RepoData) (par : Option Repo)
    (k : ObjKey) (o : MetaObj)
    (hfound : lookupA d.objectsMeta k = some o) :
    (o.size ≤ 16384 →
      load_metadata_internal (.mk d par) k true
        = .ok (some (Backing.heap, o))) ∧
    (16384 < o.size →
      load_metadata_internal (.mk d par) k true
        = .ok (some (Backing.mmap, o))) := by
  have hl : localMetaLookup d k = some o := by
    simp [localMetaLookup, hfound]
  have key : load_metadata_internal (.mk d par) k true
      = .ok (some (chooseBacking o.size, o)) := by
    cases par <;> simp only [load_metadata_internal, hl]
  constructor
  · intro h
    rw [key]
    simp only [chooseBacking]
    rw [if_neg (by omega)]
  · intro h
    rw [key]
    simp only [chooseBacking]
    rw [if_pos (by omega)]

/-- Concrete witness repo for C8: one commit object of exactly 16384 bytes. -/
def c8Key : ObjKey := ⟨"aa", .commit⟩

/-- The 16384-byte metadata object of the C8 witness. -/
def c8Obj : MetaObj := ⟨16384, .blob []⟩

/-- The C8 witness repository. -/
def c8Repo : RepoData := ⟨.bare, [(c8Key, c8Obj)], [], none, [], [], false⟩

/-- C8 witness: the boundary object is returned heap-backed. -/
theorem c8_metadata_mmap_threshold_witness :
    load_metadata_internal (.mk c8Repo none) c8Key true
      = .ok (some (Backing.heap, c8Obj)) :=
  (c8_metadata_mmap_threshold c8Repo none c8Key c8Obj (by decide)).1 (by decide)

/-! Claim C10: file:// remote names bypass the registry. -/

/-- C10: for every remote name beginning with file://, the three remote option
getters succeed with the caller-supplied default (the absent list for the
list getter) on any repository whatsoever, in particular with any registry
contents and any parent chain, and ostree_repo_remote_get_gpg_verify reports
verification disabled. -/
theorem c10_file_remote_bypass (r : Repo) (n k : String)
    (dflt : Option String) (db : Bool)
    (h : _ostree_repo_remote_name_is_file n = true) :
    ostree_repo_get_remote_option r n k dflt = .ok dflt ∧
    ostree_repo_get_remote_list_option r n k = .ok none ∧
    ostree_repo_get_remote_boolean_option r n k db = .ok db ∧
    ostree_repo_remote_get_gpg_verify r n = .ok false := by
  obtain ⟨d, par⟩ := r
  cases par <;>
    refine ⟨?_, ?_, ?_, ?_⟩ <;>
      simp [ostree_repo_get_remote_option, ostree_repo_get_remote_list_option,
            ostree_repo_get_remote_boolean_option,
            ostree_repo_remote_get_gpg_verify, h]

/-- A registry and parent for the C10 witness that would be visible if the
bypass failed: the remote file://x exists locally with gpg-verify true. -/
def c10Repo : Repo :=
  .mk ⟨.bare, [], [], none, [],
       [("file://x", [("url", "ignored"), ("gpg-verify", "true")])], false⟩ none

/-- C10 witness: the getters ignore the registry entry for file://x. -/
theorem c10_file_remote_bypass_witness :
    ostree_repo_get_remote_option c10Repo "file://x" "url" (some "d")
        = .ok (some "d") ∧
    ostree_repo_get_remote_list_option c10Repo "file://x" "url" = .ok none ∧
    ostree_repo_get_remote_boolean_option c10Repo "file://x" "url" true
        = .ok true ∧
    ostree_repo_remote_get_gpg_verify c10Repo "file://x" = .ok false :=
  c10_file_remote_bypass c10Repo "file://x" "url" (some "d") true (by decide)

/-! Claim C2: remote listing with a parent repo configured. -/

/-- The self-recursion of _ostree_repo_remote_list: with a parent configured
the helper revisits the same repo at every step, so it exhausts any fuel. -/
theorem remote_list_helper_self_loop (fuel : Nat) :
    ∀ (d : RepoData) (p : Repo) (acc : List String),
      _ostree_repo_remote_list fuel (.mk d (some p)) acc = none := by
  induction fuel with
  | zero => intro d p acc; rfl
  | succ n ih =>
    intro d p acc
    simpa [_ostree_repo_remote_list] using ih d p (insertRemoteNames d acc)

/-- C2: ostree_repo_remote_list never terminates on a repository with a
parent repo configured: for every recursion-depth bound the helper is still
running, because the condition at ostree-repo.c:1148 recurses on self rather
than on the parent.  This contradicts the function's documented contract of
returning the registered remote names sorted alphabetically. -/
theorem c2_remote_list_never_returns (fuel : Nat) (d : RepoData) (p : Repo) :
    ostree_repo_remote_list fuel (.mk d (some p)) = none := by
  simp [ostree_repo_remote_list, remote_list_helper_self_loop]

/-! Claim C1: lookup order of object reads. -/

/-- The commit key of the C1 counterexample. -/
def c1Key : ObjKey := ⟨"aa", .commit⟩

/-- The copy of the C1 commit stored under objects/. -/
def c1ObjMain : MetaObj := ⟨1, .blob [1]⟩

/-- A different copy of the C1 commit stored in the open staging directory. -/
def c1ObjStage : MetaObj := ⟨1, .blob [2]⟩

/-- The C1 repository: the same commit present in both the open commit
staging directory and the main objects/ directory, with different contents. -/
def c1Data : RepoData :=
  ⟨.bare, [(c1Key, c1ObjMain)], [], some ⟨[(c1Key, c1ObjStage)], []⟩,
   [], [], false⟩

/-- C1 counterexample: with a commit staging directory open and the object
present in both it and objects/, the metadata load returns the objects/ copy,
not the staging copy — so the staging directory is not attempted first, as
the claim states. -/
theorem c1_counterexample :
    load_metadata_internal (.mk c1Data none) c1Key true
        = .ok (some (Backing.heap, c1ObjMain)) ∧
      c1ObjMain ≠ c1ObjStage := by
  constructor
  · rfl
  · decide

/-- C1 (amended): object reads attempt the main objects/ directory first and
the open commit staging directory second (for metadata loads, the found blob
is returned with its size-chosen backing; for bare file loads, the found
entry is decoded under the repo's mode); only the existence check scans the
staging directory before objects/; an object absent from both local
directories is delegated to the parent repo recursively; and absence at the
bottom of the chain is reported as the distinguished not-found error. -/
theorem c1_lookup_order (d : RepoData) (par : Option Repo) (k : ObjKey)
    (e : Bool) (checksum : String) :
    (∀ o, lookupA d.objectsMeta k = some o →
      load_metadata_internal (.mk d par) k e
        = .ok (some (chooseBacking o.size, o))) ∧
    (∀ st o, lookupA d.objectsMeta k = none → d.staged = some st →
      lookupA st.meta k = some o →
      load_metadata_internal (.mk d par) k e
        = .ok (some (chooseBacking o.size, o))) ∧
    (∀ p, localMetaLookup d k = none → par = some p →
      load_metadata_internal (.mk d par) k e
        = load_metadata_internal p k true) ∧
    (localMetaLookup d k = none → par = none →
      load_metadata_internal (.mk d par) k e
        = if e then .error .notFound else .ok none) ∧
    (∀ f, lookupA d.objectsFiles checksum = some f →
      _ostree_repo_load_file_bare (.mk d par) checksum
        = loadFileBareLocal d f) ∧
    (∀ st f, lookupA d.objectsFiles checksum = none → d.staged = some st →
      lookupA st.files checksum = some f →
      _ostree_repo_load_file_bare (.mk d par) checksum
        = loadFileBareLocal d f) ∧
    (∀ p, localFileLookup d checksum = none → par = some p →
      _ostree_repo_load_file_bare (.mk d par) checksum
        = _ostree_repo_load_file_bare p checksum) ∧
    (localFileLookup d checksum = none → par = none →
      _ostree_repo_load_file_bare (.mk d par) checksum = .error .notFound) ∧
    (∀ p, par = some p →
      ostree_repo_has_object (.mk d par) k
        = (_ostree_repo_has_loose_object (.mk d par) k
            || ostree_repo_has_object p k)) ∧
    (par = none →
      ostree_repo_has_object (.mk d par) k
        = _ostree_repo_has_loose_object (.mk d par) k) := by
  refine ⟨?_, ?_, ?_, ?_, ?_, ?_, ?_, ?_, ?_, ?_⟩
  · intro o ho
    have hl : localMetaLookup d k = some o := by simp [localMetaLookup, ho]
    cases par <;> simp only [load_metadata_internal, hl]
  · intro st o h1 h2 h3
    have hl : localMetaLookup d k = some o := by
      simp [localMetaLookup, h1, h2, h3]
    cases par <;> simp only [load_metadata_internal, hl]
  · intro p hl hpar
    subst hpar
    simp only [load_metadata_internal, hl]
  · intro hl hpar
    subst hpar
    simp only [load_metadata_internal, hl]
  · intro f hf
    have hl : localFileLookup d checksum = some f := by
      simp [localFileLookup, hf]
    cases par <;> simp only [_ostree_repo_load_file_bare, hl]
  · intro st f h1 h2 h3
    have hl : localFileLookup d checksum = some f := by
      simp [localFileLookup, h1, h2, h3]
    cases par <;> simp only [_ostree_repo_load_file_bare, hl]
  · intro p hl hpar
    subst hpar
    simp only [_ostree_repo_load_file_bare, hl]
  · intro hl hpar
    subst hpar
    simp only [_ostree_repo_load_file_bare, hl]
  · intro p hpar
    subst hpar
    simp only [ostree_repo_has_object]
  · intro hpar
    subst hpar
    simp only [ostree_repo_has_object]

/-- C1 witness: the objects/ copy of the doubly stored commit is returned. -/
theorem c1_lookup_order_witness :
    load_metadata_internal (.mk c1Data none) c1Key false
      = .ok (some (chooseBacking c1ObjMain.size, c1ObjMain)) :=
  (c1_lookup_order c1Data none c1Key false "x").1 c1ObjMain (by decide)

/-! Claim C3: identity canonicalization in BARE_USER_ONLY. -/

/-- The content object of the C3 counterexample as stored in the parent
repo: a regular file owned by uid/gid 1000 with one xattr. -/
def c3File : DiskFile := ⟨1000, 1000, 33188, none, [("user.foo", "bar")], "content"⟩

/-- The BARE-mode parent repo of the C3 counterexample. -/
def c3Parent : Repo :=
  .mk ⟨.bare, [], [("c3", c3File)], none, [], [], false⟩ none

/-- The BARE_USER_ONLY child repo of the C3 counterexample: the object is
absent locally and reachable only through the parent cascade. -/
def c3Child : Repo :=
  .mk ⟨.bareUserOnly, [], [], none, [], [], false⟩ (some c3Parent)

/-- C3 counterexample: a load_file on a BARE_USER_ONLY repository that finds
the object through the parent-repo cascade returns the parent's recorded
identity (uid 1000, gid 1000, one xattr), not the canonicalized uid 0, gid 0
and empty xattr set the claim asserts for every source representation. -/
theorem c3_counterexample :
    _ostree_repo_load_file_bare c3Child "c3"
        = .ok ⟨1000, 1000, 33188, none, [("user.foo", "bar")]⟩ ∧
      (1000 : Nat) ≠ 0 := by
  constructor
  · rfl
  · decide

/-- C3 (amended): in a BARE_USER_ONLY repository, every successful load of a
content object found in the repository itself (objects/ or the staging
directory, not via the parent cascade) returns uid 0, gid 0 and an empty
xattr set; an object found only through a parent repo is decoded under the
parent's own mode, so its identity follows the parent's representation. -/
theorem c3_bare_user_only_zero (d : RepoData) (par : Option Repo)
    (checksum : String) (f : DiskFile) (lf : LoadedFile)
    (hmode : d.mode = .bareUserOnly)
    (hlocal : localFileLookup d checksum = some f)
    (hok : _ostree_repo_load_file_bare (.mk d par) checksum = .ok lf) :
    lf.uid = 0 ∧ lf.gid = 0 ∧ lf.xattrs = [] := by
  have hok2 : loadFileBareLocal d f = .ok lf := by
    cases par <;> simpa only [_ostree_repo_load_file_bare, hlocal] using hok
  simp only [loadFileBareLocal, hmode] at hok2
  split at hok2
  · exact absurd hok2 (by simp)
  · injection hok2 with h
    subst h
    exact ⟨rfl, rfl, rfl⟩

/-- A locally stored file with nonzero on-disk identity for the C3 witness. -/
def c3LocalFile : DiskFile := ⟨7, 8, 33188, none, [("a", "b")], "x"⟩

/-- The BARE_USER_ONLY repo of the C3 witness, holding the file itself. -/
def c3LocalData : RepoData :=
  ⟨.bareUserOnly, [], [("cc", c3LocalFile)], none, [], [], false⟩

/-- C3 witness: the locally stored file loads with canonicalized identity. -/
theorem c3_bare_user_only_zero_witness :
    (⟨0, 0, 33188, none, []⟩ : LoadedFile).uid = 0 ∧
    (⟨0, 0, 33188, none, []⟩ : LoadedFile).gid = 0 ∧
    (⟨0, 0, 33188, none, []⟩ : LoadedFile).xattrs = [] :=
  c3_bare_user_only_zero c3LocalData none "cc" c3LocalFile
    ⟨0, 0, 33188, none, []⟩ rfl rfl rfl

/-! Claims C4 and C9: deletion of commit objects. -/

/-- C4: deleting a present commit succeeds; the loose commit is removed, the
commitmeta twin is removed whether or not it existed, and when
core/tombstone-commits parses to true a tombstone metadata object recording
the deleted digest is present afterwards (freshly written with exactly the
commit-to-digest dictionary when no tombstone already existed). -/
theorem c4_delete_commit (d : RepoData) (par : Option Repo) (sha : String)
    (o : MetaObj) (tb : Bool)
    (hc : lookupA d.objectsMeta ⟨sha, .commit⟩ = some o)
    (htb : ot_keyfile_get_boolean_with_default d.config "core"
             "tombstone-commits" false = .ok tb) :
    (ostree_repo_delete_object (.mk d par) .commit sha).2 = none ∧
    lookupA (ostree_repo_delete_object (.mk d par) .commit
        sha).1.data.objectsMeta ⟨sha, .commit⟩ = none ∧
    lookupA (ostree_repo_delete_object (.mk d par) .commit
        sha).1.data.objectsMeta ⟨sha, .commitMeta⟩ = none ∧
    (tb = true →
      ∃ t, lookupA (ostree_repo_delete_object (.mk d par) .commit
              sha).1.data.objectsMeta ⟨sha, .tombstoneCommit⟩ = some t ∧
        (lookupA d.objectsMeta ⟨sha, .tombstoneCommit⟩ = none →
          t = ⟨encodedSize (tombstoneVariant sha), tombstoneVariant sha⟩)) := by
  have hMC : (⟨sha, .commitMeta⟩ : ObjKey) ≠ ⟨sha, .commit⟩ := by simp
  have hMT : (⟨sha, .commitMeta⟩ : ObjKey) ≠ ⟨sha, .tombstoneCommit⟩ := by simp
  have hCT : (⟨sha, .commit⟩ : ObjKey) ≠ ⟨sha, .tombstoneCommit⟩ := by simp
  have hCM : (⟨sha, .commit⟩ : ObjKey) ≠ ⟨sha, .commitMeta⟩ := by simp
  have h1 : lookupA (removeA d.objectsMeta ⟨sha, .commitMeta⟩)
      ⟨sha, .commit⟩ = some o :=
    (lookupA_removeA_ne _ _ _ hMC).trans hc
  have hT : lookupA
      (removeA (removeA d.objectsMeta ⟨sha, .commitMeta⟩) ⟨sha, .commit⟩)
      ⟨sha, .tombstoneCommit⟩ = lookupA d.objectsMeta ⟨sha, .tombstoneCommit⟩ :=
    (lookupA_removeA_ne _ _ _ hCT).trans (lookupA_removeA_ne _ _ _ hMT)
  cases tb with
  | false =>
    have hres : ostree_repo_delete_object (.mk d par) .commit sha
        = (Repo.mk { d with objectsMeta := removeA (removeA d.objectsMeta ⟨sha, .commitMeta⟩) ⟨sha, .commit⟩ } par, none) := by
      simp [ostree_repo_delete_object, h1, htb]
    refine ⟨by rw [hres], ?_, ?_, ?_⟩
    · rw [hres]
      simpa [Repo.data] using lookupA_removeA_self _ _
    · rw [hres]
      simp only [Repo.data]
      rw [lookupA_removeA_ne _ _ _ hCM]
      exact lookupA_removeA_self _ _
    · intro h
      exact absurd h (by decide)
  | true =>
    cases htom : lookupA
        (removeA (removeA d.objectsMeta ⟨sha, .commitMeta⟩) ⟨sha, .commit⟩)
        ⟨sha, .tombstoneCommit⟩ with
    | none =>
      have hres : ostree_repo_delete_object (.mk d par) .commit sha
          = (Repo.mk { d with objectsMeta := setA (removeA (removeA d.objectsMeta ⟨sha, .commitMeta⟩) ⟨sha, .commit⟩) ⟨sha, .tombstoneCommit⟩ ⟨encodedSize (tombstoneVariant sha), tombstoneVariant sha⟩ } par, none) := by
        simp [ostree_repo_delete_object, h1, htb,
              ostree_repo_write_metadata_trusted, htom]
      refine ⟨by rw [hres], ?_, ?_, ?_⟩
      · rw [hres]
        simp only [Repo.data]
        rw [lookupA_setA_ne _ _ _ _ (Ne.symm hCT)]
        exact lookupA_removeA_self _ _
      · rw [hres]
        simp only [Repo.data]
        rw [lookupA_setA_ne _ _ _ _ (Ne.symm hMT),
            lookupA_removeA_ne _ _ _ hCM]
        exact lookupA_removeA_self _ _
      · intro _
        refine ⟨⟨encodedSize (tombstoneVariant sha), tombstoneVariant sha⟩,
                ?_, ?_⟩
        · rw [hres]
          simp only [Repo.data]
          exact lookupA_setA_self _ _ _
        · intro _
          rfl
    | some t0 =>
      have hres : ostree_repo_delete_object (.mk d par) .commit sha
          = (Repo.mk { d with objectsMeta := removeA (removeA d.objectsMeta ⟨sha, .commitMeta⟩) ⟨sha, .commit⟩ } par, none) := by
        simp [ostree_repo_delete_object, h1, htb,
              ostree_repo_write_metadata_trusted, htom]
      refine ⟨by rw [hres], ?_, ?_, ?_⟩
      · rw [hres]
        simpa [Repo.data] using lookupA_removeA_self _ _
      · rw [hres]
        simp only [Repo.data]
        rw [lookupA_removeA_ne _ _ _ hCM]
        exact lookupA_removeA_self _ _
      · intro _
        refine ⟨t0, ?_, ?_⟩
        · rw [hres]
          simp only [Repo.data]
          exact htom
        · intro habs
          exact absurd (hT.symm.trans htom).symm (by simp [habs])

/-- Config of the C4 witness: tombstones enabled. -/
def c4Config : List ((String × String) × String) :=
  [(("core", "tombstone-commits"), "true")]

/-- The C4 witness repo: one commit plus its detached commitmeta. -/
def c4Data : RepoData :=
  ⟨.bare,
   [(⟨"aa", .commit⟩, ⟨2, .blob [9]⟩),
    (⟨"aa", .commitMeta⟩, ⟨1, .blob [7]⟩)],
   [], none, c4Config, [], false⟩

/-- C4 witness: deleting the commit succeeds, removes both objects and
writes the tombstone. -/
theorem c4_delete_commit_witness :
    (ostree_repo_delete_object (.mk c4Data none) .commit "aa").2 = none ∧
    lookupA (ostree_repo_delete_object (.mk c4Data none) .commit
        "aa").1.data.objectsMeta ⟨"aa", .commit⟩ = none ∧
    lookupA (ostree_repo_delete_object (.mk c4Data none) .commit
        "aa").1.data.objectsMeta ⟨"aa", .commitMeta⟩ = none ∧
    (true = true →
      ∃ t, lookupA (ostree_repo_delete_object (.mk c4Data none) .commit
              "aa").1.data.objectsMeta ⟨"aa", .tombstoneCommit⟩ = some t ∧
        (lookupA c4Data.objectsMeta ⟨"aa", .tombstoneCommit⟩ = none →
          t = ⟨encodedSize (tombstoneVariant "aa"), tombstoneVariant "aa"⟩)) :=
  c4_delete_commit c4Data none "aa" ⟨2, .blob [9]⟩ true (by decide) rfl

/-- C9: deleting an absent commit is not atomic: the call reports the
not-found error, yet the commitmeta twin that existed beforehand has already
been unlinked from the repository state the call leaves behind. -/
theorem c9_delete_commit_unlinks_meta_on_failure (d : RepoData)
    (par : Option Repo) (sha : String) (m : MetaObj)
    (habsent : lookupA d.objectsMeta ⟨sha, .commit⟩ = none)
    (_hmeta : lookupA d.objectsMeta ⟨sha, .commitMeta⟩ = some m) :
    (ostree_repo_delete_object (.mk d par) .commit sha).2
        = some RErr.notFound ∧
    lookupA (ostree_repo_delete_object (.mk d par) .commit
        sha).1.data.objectsMeta ⟨sha, .commitMeta⟩ = none := by
  have hMC : (⟨sha, .commitMeta⟩ : ObjKey) ≠ ⟨sha, .commit⟩ := by simp
  have h1 : lookupA (removeA d.objectsMeta ⟨sha, .commitMeta⟩)
      ⟨sha, .commit⟩ = none :=
    (lookupA_removeA_ne _ _ _ hMC).trans habsent
  have hres : ostree_repo_delete_object (.mk d par) .commit sha
      = (Repo.mk { d with objectsMeta := removeA d.objectsMeta ⟨sha, .commitMeta⟩ } par, some RErr.notFound) := by
    simp [ostree_repo_delete_object, h1]
  refine ⟨by rw [hres], ?_⟩
  rw [hres]
  simpa [Repo.data] using lookupA_removeA_self _ _

/-- The C9 witness repo: a detached commitmeta with no commit. -/
def c9Data : RepoData :=
  ⟨.bare, [(⟨"bb", .commitMeta⟩, ⟨1, .blob [7]⟩)], [], none, [], [], false⟩

/-- C9 witness: the failing delete still removed the commitmeta. -/
theorem c9_delete_commit_unlinks_meta_on_failure_witness :
    (ostree_repo_delete_object (.mk c9Data none) .commit "bb").2
        = some RErr.notFound ∧
    lookupA (ostree_repo_delete_object (.mk c9Data none) .commit
        "bb").1.data.objectsMeta ⟨"bb", .commitMeta⟩ = none :=
  c9_delete_commit_unlinks_meta_on_failure c9Data none "bb" ⟨1, .blob [7]⟩
    (by decide) (by decide)

/-! Claim C5: inheritance cascade of the remote option getters. -/

/-- C5: for a non-file remote name, (a) when the remote is absent from the
local registry each typed getter delegates the whole lookup to the parent
repo; (b) when the remote exists locally but the key is missing, a successful
parent lookup provides the result and a failing parent lookup falls back to
the caller default (the absent list for the list getter). -/
theorem c5_remote_option_cascade (d : RepoData) (p : Repo) (n k : String)
    (dflt : Option String) (db : Bool)
    (hfile : _ostree_repo_remote_name_is_file n = false) :
    (lookupA d.remotes n = none →
      ostree_repo_get_remote_option (.mk d (some p)) n k dflt
          = ostree_repo_get_remote_option p n k dflt ∧
      ostree_repo_get_remote_list_option (.mk d (some p)) n k
          = ostree_repo_get_remote_list_option p n k ∧
      ostree_repo_get_remote_boolean_option (.mk d (some p)) n k db
          = ostree_repo_get_remote_boolean_option p n k db) ∧
    (∀ opts, lookupA d.remotes n = some opts → lookupA opts k = none →
      (∀ v, ostree_repo_get_remote_option p n k dflt = .ok v →
        ostree_repo_get_remote_option (.mk d (some p)) n k dflt = .ok v) ∧
      (∀ e, ostree_repo_get_remote_option p n k dflt = .error e →
        ostree_repo_get_remote_option (.mk d (some p)) n k dflt = .ok dflt) ∧
      (∀ v, ostree_repo_get_remote_list_option p n k = .ok v →
        ostree_repo_get_remote_list_option (.mk d (some p)) n k = .ok v) ∧
      (∀ e, ostree_repo_get_remote_list_option p n k = .error e →
        ostree_repo_get_remote_list_option (.mk d (some p)) n k = .ok none) ∧
      (∀ v, ostree_repo_get_remote_boolean_option p n k db = .ok v →
        ostree_repo_get_remote_boolean_option (.mk d (some p)) n k db
          = .ok v) ∧
      (∀ e, ostree_repo_get_remote_boolean_option p n k db = .error e →
        ostree_repo_get_remote_boolean_option (.mk d (some p)) n k db
          = .ok db)) := by
  constructor
  · intro habs
    refine ⟨?_, ?_, ?_⟩
    · simp only [ostree_repo_get_remote_option, hfile, Bool.false_eq_true,
                 if_false, habs]
    · simp only [ostree_repo_get_remote_list_option, hfile, Bool.false_eq_true,
                 if_false, habs]
    · simp only [ostree_repo_get_remote_boolean_option, hfile,
                 Bool.false_eq_true, if_false, habs]
  · intro opts hrem hkey
    refine ⟨?_, ?_, ?_, ?_, ?_, ?_⟩
    · intro v hv
      simp [ostree_repo_get_remote_option, hfile, hrem, hkey, hv]
    · intro e he
      simp [ostree_repo_get_remote_option, hfile, hrem, hkey, he]
    · intro v hv
      simp [ostree_repo_get_remote_list_option, hfile, hrem, hkey, hv]
    · intro e he
      simp [ostree_repo_get_remote_list_option, hfile, hrem, hkey, he]
    · intro v hv
      simp [ostree_repo_get_remote_boolean_option, hfile, hrem, hkey, hv]
    · intro e he
      simp [ostree_repo_get_remote_boolean_option, hfile, hrem, hkey, he]

/-- The parent repo of the C5 witness: it defines remote upstream with a
url. -/
def c5Parent : Repo :=
  .mk ⟨.bare, [], [], none, [],
       [("upstream", [("url", "https://a/")])], false⟩ none

/-- The child repo data of the C5 witness: upstream exists locally but
without a url key. -/
def c5Child : RepoData :=
  ⟨.bare, [], [], none, [], [("upstream", [("gpg-verify", "false")])], false⟩

/-- C5 witness: the child finds the parent's url for upstream even though
its own upstream group lacks the key. -/
theorem c5_remote_option_cascade_witness :
    ostree_repo_get_remote_option (.mk c5Child (some c5Parent)) "upstream"
      "url" none = .ok (some "https://a/") :=
  (((c5_remote_option_cascade c5Child c5Parent "upstream" "url" none true
        (by decide)).2 [("gpg-verify", "false")] (by decide) (by decide)).1)
    (some "https://a/") rfl

/-! Claim C6: duplicate detection and append in ostree_repo_sign_commit. -/

/-- Entries of a detached-metadata dictionary (empty when absent). -/
def dictEntriesOf : Option MVal → List (String × MLeaf)
  | some (.vdict l) => l
  | _ => []

/-- The append helper writes the old signature list (empty when absent or
ill-typed) extended by the new signature under ostree.gpgsigs. -/
theorem append_gpg_sig_eq (old : Option MVal) (sig : GpgSig) :
    _ostree_detached_metadata_append_gpg_sig old sig
      = .vdict (setA (dictEntriesOf old) "ostree.gpgsigs"
          (.sigArray (((gpgsigsOf old).getD []) ++ [sig]))) := by
  rcases old with _ | mv
  · rfl
  · rcases mv with bs | es
    · rfl
    · simp only [_ostree_detached_metadata_append_gpg_sig, gpgsigsOf,
                 dictEntriesOf]
      rcases hl : lookupA es "ostree.gpgsigs" with _ | leaf
      · simp [hl]
      · rcases leaf with bs2 | sigs <;> simp [hl]

/-- C6: sign_commit on a readable commit, with the detached metadata read
yielding old: if the requested key id already appears among the parsed
signatures the call fails with the exists error (and returns no new state);
otherwise the commit bytes are handed to sign_data, whose failure (no secret
key under the requested id, or a GPG engine fault) is propagated with nothing
appended, and whose produced signature is appended as exactly one new element
under ostree.gpgsigs and persisted. -/
theorem c6_sign_commit (d : RepoData) (par : Option Repo) (env : GpgEnv)
    (sha keyId : String) (b : Backing) (co : MetaObj) (old : Option MVal)
    (hload : ostree_repo_load_variant (.mk d par) ⟨sha, .commit⟩
        = .ok (some (b, co)))
    (hmd : ostree_repo_read_commit_detached_metadata (.mk d par) sha
        = .ok old) :
    (∀ sigs, gpgsigsOf old = some sigs → keyId ∈ sigs.map GpgSig.keyId →
      ostree_repo_sign_commit (.mk d par) env sha keyId = .error .already) ∧
    (keyId ∉ ((gpgsigsOf old).getD []).map GpgSig.keyId →
      (∀ e, sign_data env co.val.bytesOf keyId = .error e →
        ostree_repo_sign_commit (.mk d par) env sha keyId = .error e) ∧
      (∀ sig, sign_data env co.val.bytesOf keyId = .ok sig →
        ∃ d2, ostree_repo_sign_commit (.mk d par) env sha keyId
            = .ok (.mk d2 par) ∧
          gpgsigsOf ((lookupA d2.objectsMeta ⟨sha, .commitMeta⟩).map
              (fun ob => ob.val))
            = some (((gpgsigsOf old).getD []) ++ [sig]))) := by
  constructor
  · intro sigs hs hmem
    simp [ostree_repo_sign_commit, hload, hmd,
          _ostree_repo_gpg_verify_with_metadata, hs, hmem]
  · intro hnot
    constructor
    · intro e he
      rcases hgs : gpgsigsOf old with _ | sigs
      · simp [ostree_repo_sign_commit, hload, hmd,
              _ostree_repo_gpg_verify_with_metadata, hgs, he]
      · have hni : keyId ∉ sigs.map GpgSig.keyId := by
          simpa [hgs] using hnot
        simp [ostree_repo_sign_commit, hload, hmd,
              _ostree_repo_gpg_verify_with_metadata, hgs, hni, he]
    · intro sig hsig
      have hres : ostree_repo_sign_commit (.mk d par) env sha keyId
          = .ok (.mk (ostree_repo_write_commit_detached_metadata d sha
              (_ostree_detached_metadata_append_gpg_sig old sig)) par) := by
        rcases hgs : gpgsigsOf old with _ | sigs
        · simp [ostree_repo_sign_commit, hload, hmd,
                _ostree_repo_gpg_verify_with_metadata, hgs, hsig]
        · have hni : keyId ∉ sigs.map GpgSig.keyId := by
            simpa [hgs] using hnot
          simp [ostree_repo_sign_commit, hload, hmd,
                _ostree_repo_gpg_verify_with_metadata, hgs, hni, hsig]
      refine ⟨_, hres, ?_⟩
      simp [ostree_repo_write_commit_detached_metadata, append_gpg_sig_eq,
            gpgsigsOf, lookupA_setA_self]

/-- The commit object of the C6 witness. -/
def c6Commit : MetaObj := ⟨4, .blob [1, 2]⟩

/-- The pre-existing detached metadata of the C6 witness: one signature by
key K1. -/
def c6Old : MVal := .vdict [("ostree.gpgsigs", .sigArray [⟨"K1", [9]⟩])]

/-- The C6 witness repo: the commit and its detached metadata. -/
def c6Data : RepoData :=
  ⟨.bare,
   [(⟨"cc", .commit⟩, c6Commit), (⟨"cc", .commitMeta⟩, ⟨1, c6Old⟩)],
   [], none, [], [], false⟩

/-- The GPG engine of the C6 witness: the secret key K2 is available and the
engine is healthy. -/
def c6Env : GpgEnv := ⟨["K2"], none⟩

/-- C6 witness: signing with a fresh key K2 appends exactly one signature. -/
theorem c6_sign_commit_witness :
    ∃ d2, ostree_repo_sign_commit (.mk c6Data none) c6Env "cc" "K2"
        = .ok (.mk d2 none) ∧
      gpgsigsOf ((lookupA d2.objectsMeta ⟨"cc", .commitMeta⟩).map
          (fun ob => ob.val))
        = some (((gpgsigsOf (some c6Old)).getD [])
                  ++ [⟨"K2", c6Commit.val.bytesOf⟩]) :=
  (((c6_sign_commit c6Data none c6Env "cc" "K2" Backing.heap c6Commit
      (some c6Old) rfl rfl).2 (by decide)).2)
    ⟨"K2", c6Commit.val.bytesOf⟩ rfl

/-! Claim C7: ordering of the regenerated summary. -/

/-- Strict sortedness of an insertion sort of distinct strings. -/
theorem sorted_sort_of_nodup (l : List String) (hn : l.Nodup) :
    (l.insertionSort (fun a b => a ≤ b)).Sorted (fun a b => a < b) :=
  List.Sorted.lt_of_le (List.sorted_insertionSort _ l)
    ((List.perm_insertionSort _ l).nodup_iff.mpr hn)

/-- Strict sortedness of a filtered insertion sort of distinct strings. -/
theorem sorted_filter_sort (l : List String) (p : String → Bool)
    (hn : l.Nodup) :
    ((l.insertionSort (fun a b => a ≤ b)).filter p).Sorted
      (fun a b => a < b) := by
  have hs : (l.insertionSort (fun a b => a ≤ b)).Sorted (fun a b => a ≤ b) :=
    List.sorted_insertionSort _ l
  have hnd : (l.insertionSort (fun a b => a ≤ b)).Nodup :=
    (List.perm_insertionSort _ l).nodup_iff.mpr hn
  exact List.Sorted.lt_of_le (List.Pairwise.filter p hs)
    (List.Nodup.filter p hnd)

/-- Distinct (collection id, ref name) keys have distinct ref names inside
any one collection id. -/
theorem nodup_collectionRefNames (crefs : List ((String × String) × String))
    (cid : String) (h : (crefs.map Prod.fst).Nodup) :
    (collectionRefNames crefs cid).Nodup := by
  have hsub : List.Sublist
      ((crefs.filter (fun e => e.1.1 == cid)).map Prod.fst)
      (crefs.map Prod.fst) :=
    (List.filter_sublist crefs).map Prod.fst
  have hnd : ((crefs.filter (fun e => e.1.1 == cid)).map Prod.fst).Nodup :=
    hsub.nodup h
  have heq : collectionRefNames crefs cid
      = ((crefs.filter (fun e => e.1.1 == cid)).map Prod.fst).map Prod.snd := by
    simp [collectionRefNames, List.map_map, Function.comp]
  rw [heq]
  refine hnd.map_on ?_
  intro x hx y hy hxy
  have hx1 : x.1 = cid := by
    rcases List.mem_map.mp hx with ⟨e, he, rfl⟩
    simpa using List.of_mem_filter he
  have hy1 : y.1 = cid := by
    rcases List.mem_map.mp hy with ⟨e, he, rfl⟩
    simpa using List.of_mem_filter he
  exact Prod.ext_iff.mpr ⟨hx1.trans hy1.symm, hxy⟩

/-- C7: with hash-table inputs (distinct ref names; distinct
(collection id, ref name) keys), the refs array emitted by
regenerate_summary is strictly increasing in ref name, the emitted order of
the non-remote refs is exactly their lexicographic order (a permutation of
the non-remote names that is strictly sorted), the collection-map keys are
strictly increasing in collection id, and the refs inside each collection
entry are strictly sorted as well. -/
theorem c7_summary_sorted (mainId : Option String)
    (refs : List (String × String))
    (crefs : List ((String × String) × String))
    (hrefs : (refs.map Prod.fst).Nodup)
    (hcrefs : (crefs.map Prod.fst).Nodup) :
    (summaryMainRefNames mainId refs crefs).Sorted (fun a b => a < b) ∧
    (summaryRefNames refs).Perm
      ((refs.map Prod.fst).filter (fun ref => !refspecHasRemote ref)) ∧
    ((summaryCollectionMap mainId crefs).map Prod.fst).Sorted
      (fun a b => a < b) ∧
    (∀ e ∈ summaryCollectionMap mainId crefs,
      e.2.Sorted (fun a b => a < b)) := by
  refine ⟨?_, ?_, ?_, ?_⟩
  · cases mainId with
    | none =>
      simpa [summaryMainRefNames, summaryRefNames] using
        sorted_filter_sort (refs.map Prod.fst)
          (fun ref => !refspecHasRemote ref) hrefs
    | some mid =>
      simpa [summaryMainRefNames] using
        sorted_filter_sort (collectionRefNames crefs mid)
          (fun ref => !refspecHasRemote ref)
          (nodup_collectionRefNames crefs mid hcrefs)
  · exact (List.perm_insertionSort _ _).filter _
  · have heq : (summaryCollectionMap mainId crefs).map Prod.fst
        = ((collectionIdsOf crefs).insertionSort
              (fun a b => a ≤ b)).filter
            (fun cid => decide (mainId ≠ some cid)) := by
      simp [summaryCollectionMap, List.map_map, Function.comp_def,
            List.map_id']
    rw [heq]
    exact sorted_filter_sort (collectionIdsOf crefs) _
      (List.nodup_dedup _)
  · intro e he
    rcases List.mem_map.mp he with ⟨cid, _, rfl⟩
    exact sorted_sort_of_nodup (collectionRefNames crefs cid)
      (nodup_collectionRefNames crefs cid hcrefs)

/-- Refs of the C7 witness, deliberately unsorted. -/
def c7Refs : List (String × String) := [("b", "dead"), ("a", "cafe")]

/-- Collection refs of the C7 witness: two collections, names unsorted. -/
def c7CRefs : List ((String × String) × String) :=
  [(("org.z", "r2"), "c1"), (("org.y", "s1"), "c3"), (("org.z", "r1"), "c2")]

/-- C7 witness: the summary emission of the concrete inputs is sorted. -/
theorem c7_summary_sorted_witness :
    (summaryMainRefNames none c7Refs c7CRefs).Sorted (fun a b => a < b) ∧
    (summaryRefNames c7Refs).Perm
      ((c7Refs.map Prod.fst).filter (fun ref => !refspecHasRemote ref)) ∧
    ((summaryCollectionMap none c7CRefs).map Prod.fst).Sorted
      (fun a b => a < b) ∧
    (∀ e ∈ summaryCollectionMap none c7CRefs,
      e.2.Sorted (fun a b => a < b)) :=
  c7_summary_sorted none c7Refs c7CRefs (by decide) (by decide)

end Ostree
